import Mathlib

set_option maxRecDepth 8000

/-!
# LangForge generation pipeline: a shallow embedding

This file embeds the LangForge constructed-language generation pipeline
(template resolution, syllable generation, morpheme generation, word
building, Swadesh assignment and export) as executable Lean definitions,
and proves the documented properties of the pipeline over that embedding.

The pipeline implementation (`forge.py`) is not present in the repository
snapshot; only its documentation, its demo transcript and a notebook of
calls are.  Every definition below whose doc comment starts with
`Modelled from the spec:` is therefore a faithful rendering of the
specification's description of the missing module, anchored on the
concrete data the repository does contain (the Polynesian inventory and
pattern table of the demo transcript, the Swadesh category priority
order visible in the notebook output, the strategy descriptions of the
README).

Randomness is modelled by an explicit linear-congruential generator state
threaded through every operation, as the specification's design notes
require ("an explicit, injectable random-number-source parameter
threaded through every generation call").
-/

/-- A phoneme symbol, e.g. `"p"` or `"ŋ"`. -/
abbrev Phoneme := String

/-- A phoneme together with its positive selection weight. -/
abbrev WPhoneme := Phoneme × Nat

/-- The two phoneme classes a syllable slot can require. -/
inductive PhClass where
  | consonant
  | vowel
deriving DecidableEq, Repr

/-- Modelled from the spec: one slot of a syllable pattern — a phoneme
class, a required/optional flag, the retention weight (percent) used to
decide inclusion of an optional slot, and an optional positional
constraint restricting the slot to a closed subset of phonemes
(`[]` means unconstrained). -/
structure Slot where
  cls : PhClass
  required : Bool
  retention : Nat
  allowed : List Phoneme
deriving DecidableEq, Repr

/-- A syllable pattern is an ordered sequence of slots. -/
abbrev SyllablePattern := List Slot

/-- Modelled from the spec: a language-family template — named bundle of
weighted consonant and vowel sets, a weighted set of syllable patterns,
and the family-specific root syllable-count range. -/
structure Template where
  name : String
  consonants : List WPhoneme
  vowels : List WPhoneme
  patterns : List (SyllablePattern × Nat)
  rootMin : Nat
  rootMax : Nat
deriving DecidableEq, Repr

/-- The error taxonomy of the pipeline (spec §7). -/
inductive GenError where
  | unknownTemplate
  | invalidMorphemeType
  | invalidStrategy
  | invalidCount
  | patternUnsat
  | unknownExportFormat
deriving DecidableEq, Repr

/-- Modelled from the spec: the injected random-number source, as a pure
linear-congruential step on a `Nat` state. -/
def rngNext (s : Nat) : Nat :=
  (1103515245 * s + 12345) % 2147483648

/-- Total weight of a weighted list. -/
def totalWeight (l : List (α × Nat)) : Nat :=
  (l.map Prod.snd).sum

/-- Walk a weighted list with a cumulative-weight pointer `r`. -/
def pickAt : List (α × Nat) → Nat → Option α
  | [], _ => none
  | (a, w) :: rest, r => if r < w then some a else pickAt rest (r - w)

/-- Modelled from the spec: the single reusable weighted-random-choice
primitive (cumulative weight + uniform draw), used for pattern selection,
phoneme selection and morpheme-count selection alike. -/
def weightedChoose (l : List (α × Nat)) (s : Nat) : Option α × Nat :=
  if totalWeight l = 0 then (none, rngNext s)
  else (pickAt l (rngNext s % totalWeight l), rngNext s)

/-- The weighted phoneme set a class refers to inside a template. -/
def classSet (t : Template) : PhClass → List WPhoneme
  | .consonant => t.consonants
  | .vowel => t.vowels

/-- Modelled from the spec: the phonemes eligible for a slot — the
slot's phoneme class, filtered by the slot's positional constraint, so
every draw is constrained at the point of selection. -/
def eligible (t : Template) (slot : Slot) : List WPhoneme :=
  if slot.allowed.isEmpty then classSet t slot.cls
  else (classSet t slot.cls).filter (fun p => slot.allowed.contains p.1)

/-- Draw one phoneme for a slot, tagging it with the slot's class. -/
def drawSlot (t : Template) (slot : Slot) (s : Nat) :
    Option (PhClass × Phoneme) × Nat :=
  match weightedChoose (eligible t slot) s with
  | (some ph, s') => (some (slot.cls, ph), s')
  | (none, s') => (none, s')

/-- Modelled from the spec: realize the slots of a chosen pattern in
order — an optional slot first decides inclusion via its retention
weight, then an included or required slot draws a phoneme from its
eligible class. -/
def realizeSlots (t : Template) : List Slot → Nat → Option (List (PhClass × Phoneme)) × Nat
  | [], s => (some [], s)
  | slot :: rest, s =>
    if slot.required then
      match drawSlot t slot s with
      | (some d, s2) =>
        match realizeSlots t rest s2 with
        | (some tail, s3) => (some (d :: tail), s3)
        | (none, s3) => (none, s3)
      | (none, s2) => (none, s2)
    else
      if rngNext s % 100 < slot.retention then
        match drawSlot t slot (rngNext s) with
        | (some d, s2) =>
          match realizeSlots t rest s2 with
          | (some tail, s3) => (some (d :: tail), s3)
          | (none, s3) => (none, s3)
        | (none, s2) => (none, s2)
      else realizeSlots t rest (rngNext s)

/-- Does a realized draw list contain a vowel nucleus? -/
def hasVowel (draws : List (PhClass × Phoneme)) : Bool :=
  draws.any (fun d => d.1 == PhClass.vowel)

/-- One syllable attempt: weighted pattern choice, then slot realization. -/
def genSyllableAttempt (t : Template) (s : Nat) :
    Option (List (PhClass × Phoneme)) × Nat :=
  match weightedChoose t.patterns s with
  | (some pat, s1) => realizeSlots t pat s1
  | (none, s1) => (none, s1)

/-- Modelled from the spec: the cap on nucleus re-draws before a
malformed template is reported as unsatisfiable. -/
def maxSyllableRetries : Nat := 10

/-- Modelled from the spec: the bounded re-draw-on-empty-nucleus loop —
an attempt whose realized syllable has no vowel nucleus is re-drawn, and
after the retry cap the generator fails with `PatternUnsatisfiableError`
instead of looping forever. -/
def genSyllableLoop (t : Template) : Nat → Nat → Except GenError (List (PhClass × Phoneme)) × Nat
  | 0, s => (.error .patternUnsat, s)
  | Nat.succ fuel, s =>
    match genSyllableAttempt t s with
    | (some draws, s1) =>
      if hasVowel draws then (.ok draws, s1)
      else genSyllableLoop t fuel s1
    | (none, s1) => genSyllableLoop t fuel s1

/-- Generate one syllable (as its tagged phoneme draws). -/
def genSyllable (t : Template) (s : Nat) :
    Except GenError (List (PhClass × Phoneme)) × Nat :=
  genSyllableLoop t maxSyllableRetries s

/-- Generate `n` syllables, threading the random state. -/
def genSyllList (t : Template) : Nat → Nat → Except GenError (List (List (PhClass × Phoneme))) × Nat
  | 0, s => (.ok [], s)
  | Nat.succ n, s =>
    match genSyllable t s with
    | (.ok c, s1) =>
      match genSyllList t n s1 with
      | (.ok rest, s2) => (.ok (c :: rest), s2)
      | (.error e, s2) => (.error e, s2)
    | (.error e, s1) => (.error e, s1)

/-- The phoneme symbols of a realized syllable, in slot order. -/
def syllPhonemes (c : List (PhClass × Phoneme)) : List Phoneme :=
  c.map Prod.snd

/-- Concatenate a phoneme list into the surface string. -/
def renderPhonemes (l : List Phoneme) : String :=
  l.foldr (fun p acc => p ++ acc) ""

/-- The surface string of a realized syllable. -/
def renderSyllable (c : List (PhClass × Phoneme)) : String :=
  renderPhonemes (syllPhonemes c)

/-- Modelled from the spec: `generateSyllables(template, count, seed)` —
the public syllable API, returning surface strings. -/
def generateSyllables (t : Template) (count seed : Nat) :
    Except GenError (List String) :=
  match genSyllList t count seed with
  | (.ok cores, _) => .ok (cores.map renderSyllable)
  | (.error e, _) => .error e

/-- A required consonant slot with no positional constraint. -/
def cSlot : Slot := ⟨PhClass.consonant, true, 100, []⟩

/-- A required vowel slot with no positional constraint. -/
def vSlot : Slot := ⟨PhClass.vowel, true, 100, []⟩

/-- A required consonant slot restricted to a closed coda subset. -/
def codaSlot (allowed : List Phoneme) : Slot :=
  ⟨PhClass.consonant, true, 100, allowed⟩

/-- Modelled from the spec: the fixed Polynesian template — the 12
consonants, 5 vowels and the V | CV pattern table shown in the demo
transcript. -/
def polynesianTemplate : Template where
  name := "polynesian"
  consonants := [("p", 1), ("t", 1), ("k", 1), ("f", 1), ("s", 1), ("h", 1),
                 ("m", 1), ("n", 1), ("ŋ", 1), ("l", 1), ("w", 1), ("j", 1)]
  vowels := [("a", 1), ("e", 1), ("i", 1), ("o", 1), ("u", 1)]
  patterns := [([vSlot], 1), ([cSlot, vSlot], 3)]
  rootMin := 1
  rootMax := 2

/-- Modelled from the spec: the fixed Japanese template — strict CV(n)
with only `n` finals, polysyllabic 2–3 syllable roots. -/
def japaneseTemplate : Template where
  name := "japanese"
  consonants := [("k", 1), ("g", 1), ("s", 1), ("z", 1), ("t", 1), ("d", 1),
                 ("n", 1), ("h", 1), ("b", 1), ("p", 1), ("m", 1), ("j", 1),
                 ("r", 1), ("w", 1)]
  vowels := [("a", 1), ("i", 1), ("u", 1), ("e", 1), ("o", 1)]
  patterns := [([vSlot], 1), ([cSlot, vSlot], 6), ([cSlot, vSlot, codaSlot ["n"]], 1)]
  rootMin := 2
  rootMax := 3

/-- Modelled from the spec: the fixed Germanic template — 18 consonants,
12 vowels, cluster-heavy pattern table. -/
def germanicTemplate : Template where
  name := "germanic"
  consonants := [("p", 1), ("t", 1), ("k", 1), ("b", 1), ("d", 1), ("g", 1),
                 ("f", 1), ("θ", 1), ("s", 1), ("ʃ", 1), ("h", 1), ("m", 1),
                 ("n", 1), ("ŋ", 1), ("l", 1), ("r", 1), ("w", 1), ("j", 1)]
  vowels := [("i", 1), ("ɪ", 1), ("e", 1), ("ɛ", 1), ("æ", 1), ("ʌ", 1),
             ("ə", 1), ("ɑ", 1), ("ɔ", 1), ("o", 1), ("ʊ", 1), ("u", 1)]
  patterns := [([vSlot], 1), ([cSlot, vSlot], 3), ([vSlot, cSlot], 2),
               ([cSlot, vSlot, cSlot], 3), ([cSlot, cSlot, vSlot], 1),
               ([cSlot, cSlot, vSlot, cSlot], 1), ([cSlot, vSlot, cSlot, cSlot], 1),
               ([cSlot, cSlot, vSlot, cSlot, cSlot], 1)]
  rootMin := 1
  rootMax := 2

/-- Modelled from the spec: the fixed Romance template — flowing open
syllables. -/
def romanceTemplate : Template where
  name := "romance"
  consonants := [("p", 1), ("t", 1), ("k", 1), ("b", 1), ("d", 1), ("g", 1),
                 ("f", 1), ("s", 1), ("m", 1), ("n", 1), ("ɲ", 1), ("l", 1),
                 ("r", 1), ("ʎ", 1), ("ɾ", 1)]
  vowels := [("a", 1), ("e", 1), ("i", 1), ("o", 1), ("u", 1)]
  patterns := [([vSlot], 1), ([cSlot, vSlot], 5), ([cSlot, vSlot, cSlot], 2),
               ([cSlot, cSlot, vSlot], 1)]
  rootMin := 1
  rootMax := 2

/-- Modelled from the spec: the fixed Sinitic template — limited finals
(n, ŋ, k, t, p). -/
def siniticTemplate : Template where
  name := "sinitic"
  consonants := [("p", 1), ("t", 1), ("k", 1), ("b", 1), ("d", 1), ("g", 1),
                 ("f", 1), ("s", 1), ("ʃ", 1), ("m", 1), ("n", 1), ("ŋ", 1),
                 ("w", 1), ("j", 1), ("l", 1), ("ɻ", 1)]
  vowels := [("a", 1), ("e", 1), ("i", 1), ("o", 1), ("u", 1), ("ə", 1)]
  patterns := [([vSlot], 1), ([cSlot, vSlot], 4),
               ([vSlot, codaSlot ["n", "ŋ", "k", "t", "p"]], 2),
               ([cSlot, vSlot, codaSlot ["n", "ŋ", "k", "t", "p"]], 3)]
  rootMin := 1
  rootMax := 2

/-- The five fixed (non-"random") templates of the system. -/
def fixedTemplates : List Template :=
  [polynesianTemplate, japaneseTemplate, germanicTemplate,
   romanceTemplate, siniticTemplate]

/-- Modelled from the spec: the broad consonant superset the "random"
template draws from. -/
def consonantSuperset : List Phoneme :=
  ["p", "t", "k", "b", "d", "g", "f", "v", "s", "z", "ʃ", "θ", "h", "m",
   "n", "ŋ", "l", "r", "w", "j", "ʎ", "ɲ", "ɻ", "ɾ", "x", "q"]

/-- Modelled from the spec: the broad vowel superset the "random"
template draws from. -/
def vowelSuperset : List Phoneme :=
  ["a", "e", "i", "o", "u", "ə", "ɛ", "ɔ", "æ", "ʌ", "ɪ", "ʊ", "y", "ø"]

/-- Modelled from the spec: synthesize a fresh "random" template — a
consonant set of 12–18 symbols and a vowel set of 5–12 symbols drawn
from the supersets with randomized weights, plus a freshly weighted set
of syllable patterns spanning V through CCVCC. -/
def synthesizeRandom (s : Nat) : Template :=
  let s1 := rngNext s
  let s2 := rngNext s1
  let nc := 12 + s1 % 7
  let nv := 5 + s2 % 8
  { name := "random"
    consonants := ((consonantSuperset.rotate (s1 % consonantSuperset.length)).take nc).map
      (fun p => (p, 1 + s2 % 5))
    vowels := ((vowelSuperset.rotate (s2 % vowelSuperset.length)).take nv).map
      (fun p => (p, 1 + s1 % 5))
    patterns := [([vSlot], 1 + s1 % 4), ([cSlot, vSlot], 1 + s2 % 4),
                 ([cSlot, vSlot, cSlot], 1 + s1 % 3), ([cSlot, cSlot, vSlot], 1 + s2 % 3),
                 ([cSlot, cSlot, vSlot, cSlot, cSlot], 1)]
    rootMin := 1
    rootMax := 2 }

/-- Modelled from the spec: `resolveTemplate(name)` — look the name up
in the fixed table, synthesize a fresh template for the sentinel name
"random", and fail with `UnknownTemplateError` otherwise.  The random
state is an explicit argument (ignored by the fixed templates). -/
def resolveTemplate (nm : String) (seed : Nat) : Except GenError Template :=
  if nm = "polynesian" then .ok polynesianTemplate
  else if nm = "japanese" then .ok japaneseTemplate
  else if nm = "germanic" then .ok germanicTemplate
  else if nm = "romance" then .ok romanceTemplate
  else if nm = "sinitic" then .ok siniticTemplate
  else if nm = "random" then .ok (synthesizeRandom seed)
  else .error .unknownTemplate

/-- Modelled from the spec: the reduced pattern subset used for affixes —
drop the most complex patterns (keep those of at most two slots), falling
back to the full table when nothing simple exists. -/
def reducedPatterns (pats : List (SyllablePattern × Nat)) : List (SyllablePattern × Nat) :=
  let simple := pats.filter (fun pw => pw.1.length ≤ 2)
  if simple.isEmpty then pats else simple

/-- The template as seen by affix generation: same phoneme sets, reduced
pattern table. -/
def affixView (t : Template) : Template :=
  { t with patterns := reducedPatterns t.patterns }

/-- Modelled from the spec: generate one root — draw a syllable count
from the family-specific range, generate that many syllables, and
concatenate their phonemes. -/
def genRoot (t : Template) (s : Nat) : Except GenError (List Phoneme) × Nat :=
  match genSyllList t (t.rootMin + rngNext s % (t.rootMax - t.rootMin + 1)) (rngNext s) with
  | (.ok cores, s2) => (.ok (cores.map syllPhonemes).flatten, s2)
  | (.error e, s2) => (.error e, s2)

/-- Modelled from the spec: generate one affix — a single syllable drawn
from the reduced pattern subset. -/
def genAffix (t : Template) (s : Nat) : Except GenError (List Phoneme) × Nat :=
  match genSyllList (affixView t) 1 s with
  | (.ok cores, s2) => (.ok (cores.map syllPhonemes).flatten, s2)
  | (.error e, s2) => (.error e, s2)

/-- Generate `n` morphemes of one kind, threading the random state. -/
def genMorphList (t : Template) (isRoot : Bool) : Nat → Nat → Except GenError (List (List Phoneme)) × Nat
  | 0, s => (.ok [], s)
  | Nat.succ n, s =>
    match (if isRoot then genRoot t s else genAffix t s) with
    | (.ok m, s1) =>
      match genMorphList t isRoot n s1 with
      | (.ok rest, s2) => (.ok (m :: rest), s2)
      | (.error e, s2) => (.error e, s2)
    | (.error e, s1) => (.error e, s1)

/-- Modelled from the spec: `generateMorphemes(template, type, count)` —
`type` must be `"roots"` or `"affixes"` (`InvalidMorphemeTypeError`
otherwise), `count` must be positive (`InvalidCountError` otherwise). -/
def generateMorphemes (t : Template) (mtype : String) (count seed : Nat) :
    Except GenError (List (List Phoneme)) :=
  if count = 0 then .error .invalidCount
  else if mtype = "roots" then (genMorphList t true count seed).1
  else if mtype = "affixes" then (genMorphList t false count seed).1
  else .error .invalidMorphemeType

/-- Modelled from the spec: the morpheme-count distribution of each word
building strategy — `simple` is one morpheme with high probability,
`complex` is 2–4 roughly uniformly, `mixed` is centered on 1–2 with a
longer tail; unrecognized names have no distribution. -/
def strategyDist : String → Option (List (Nat × Nat))
  | "simple" => some [(1, 80), (2, 20)]
  | "complex" => some [(2, 1), (3, 1), (4, 1)]
  | "mixed" => some [(1, 35), (2, 35), (3, 20), (4, 10)]
  | _ => none

/-- Modelled from the spec: build one word — draw the morpheme count
from the strategy distribution, then concatenate that many morphemes
(roots, plus at most one leading or trailing affix when the count
exceeds one). -/
def genWordOfDist (t : Template) (dist : List (Nat × Nat)) (s : Nat) :
    Except GenError (List Phoneme) × Nat :=
  match weightedChoose dist s with
  | (none, s1) => (.error .patternUnsat, s1)
  | (some k, s1) =>
    if k ≤ 1 then genRoot t s1
    else
      match genMorphList t true (k - 1) s1 with
      | (.ok roots, s2) =>
        match genAffix t s2 with
        | (.ok aff, s3) =>
          if rngNext s3 % 2 = 0 then (.ok (aff :: roots).flatten, rngNext s3)
          else (.ok (roots ++ [aff]).flatten, rngNext s3)
        | (.error e, s3) => (.error e, s3)
      | (.error e, s2) => (.error e, s2)

/-- Generate `n` words of one strategy distribution. -/
def genWordList (t : Template) (dist : List (Nat × Nat)) : Nat → Nat → Except GenError (List (List Phoneme)) × Nat
  | 0, s => (.ok [], s)
  | Nat.succ n, s =>
    match genWordOfDist t dist s with
    | (.ok w, s1) =>
      match genWordList t dist n s1 with
      | (.ok rest, s2) => (.ok (w :: rest), s2)
      | (.error e, s2) => (.error e, s2)
    | (.error e, s1) => (.error e, s1)

/-- Modelled from the spec: `buildWords(template, count, strategy)` —
fails with `InvalidStrategyError` for unrecognized strategy names. -/
def buildWords (t : Template) (count : Nat) (strategy : String) (seed : Nat) :
    Except GenError (List String) :=
  match strategyDist strategy with
  | none => .error .invalidStrategy
  | some dist =>
    match genWordList t dist count seed with
    | (.ok ws, _) => .ok (ws.map renderPhonemes)
    | (.error e, _) => .error e

/-- Modelled from the spec: the fixed 207-concept Swadesh table,
pre-partitioned into semantic categories in their fixed priority order —
basic pronouns and demonstratives first, then quantifiers, numbers, body
parts, nature terms, and so on.  The first fifty concepts and their
order are exactly those shown by the repository's notebook output. -/
def swadeshCategories : List (String × List String) :=
  [("pronouns", ["I", "you", "we", "this", "that", "who", "what", "where", "when", "how"]),
   ("quantifiers", ["not", "all", "many", "some", "few", "other"]),
   ("numbers", ["one", "two", "three", "four", "five"]),
   ("body", ["head", "hair", "eye", "nose", "mouth", "tooth", "tongue", "fingernail",
             "foot", "leg", "knee", "hand", "neck", "breast", "heart", "liver", "blood"]),
   ("nature", ["water", "fire", "sun", "moon", "star", "earth", "stone", "tree",
               "forest", "mountain", "cloud", "rain"]),
   ("descriptors", ["big", "long", "wide", "thick", "heavy", "small", "short",
                    "narrow", "thin"]),
   ("people", ["he", "you_pl", "they", "here", "there", "woman", "man", "human",
               "child", "wife", "husband", "mother", "father"]),
   ("animals", ["animal", "fish", "bird", "dog", "louse", "snake", "worm"]),
   ("plants", ["stick", "fruit", "seed", "leaf", "root", "bark", "flower", "grass", "rope"]),
   ("body_more", ["skin", "meat", "bone", "fat", "egg", "horn", "tail", "feather",
                  "ear", "wing", "belly", "guts", "back"]),
   ("actions", ["drink", "eat", "bite", "suck", "spit", "vomit", "blow", "breathe",
                "laugh", "see", "hear", "know", "think", "smell", "fear", "sleep",
                "live", "die", "kill", "fight", "hunt", "hit", "cut", "split",
                "stab", "scratch", "dig", "swim", "fly", "walk", "come", "lie",
                "sit", "stand", "turn", "fall", "give", "hold", "squeeze", "rub",
                "wash", "wipe", "pull", "push", "throw", "tie", "sew", "count",
                "say", "sing", "play", "float", "flow", "freeze", "swell"]),
   ("nature_more", ["river", "lake", "sea", "salt", "sand", "dust", "fog", "sky",
                    "wind", "snow", "ice", "smoke", "ash", "burn", "road"]),
   ("colors", ["red", "green", "yellow", "white", "black"]),
   ("qualities", ["night", "day", "year", "warm", "cold", "full", "new", "old",
                  "good", "bad", "rotten", "dirty", "straight", "round", "sharp",
                  "dull", "smooth", "wet", "dry", "correct", "near", "far",
                  "right", "left"]),
   ("relational", ["at", "in", "with", "and", "if", "because", "name"])]

/-- The flattened priority-ordered concept table: each concept with its
category, categories walked in priority order, concepts in their fixed
list order within each category. -/
def swadeshTable : List (String × String) :=
  (swadeshCategories.map (fun c => c.2.map (fun w => (w, c.1)))).flatten

/-- The priority-ordered concept names. -/
def swadeshConcepts : List String :=
  swadeshTable.map Prod.fst

/-- A Swadesh entry: concept, generated word, semantic category. -/
structure SwadeshEntry where
  concept : String
  word : String
  category : String
deriving DecidableEq, Repr

/-- The `mixed` strategy distribution, the Swadesh assigner's default. -/
def mixedDist : List (Nat × Nat) := [(1, 35), (2, 35), (3, 20), (4, 10)]

/-- Assign one word to the concept `hd` and continue with `k`. -/
def swadeshStep (t : Template) (hd : String × String)
    (k : Nat → Except GenError (List SwadeshEntry) × Nat) (s : Nat) :
    Except GenError (List SwadeshEntry) × Nat :=
  match genWordOfDist t mixedDist s with
  | (.ok w, s1) =>
    match k s1 with
    | (.ok es, s2) => (.ok (⟨hd.1, renderPhonemes w, hd.2⟩ :: es), s2)
    | (.error e, s2) => (.error e, s2)
  | (.error e, s1) => (.error e, s1)

/-- Assign a generated word to each selected concept in order. -/
def generateSwadeshAux (t : Template) : List (String × String) → Nat → Except GenError (List SwadeshEntry) × Nat
  | [], s => (.ok [], s)
  | hd :: rest, s => swadeshStep t hd (generateSwadeshAux t rest) s

/-- Modelled from the spec: `generateSwadesh(template, count)` — fails
with `InvalidCountError` outside `[0, 207]`; otherwise walks the
categories in priority order taking concepts in fixed list order until
`count` is reached, assigning each selected concept one word built with
the `mixed` strategy. -/
def generateSwadesh (t : Template) (count seed : Nat) :
    Except GenError (List SwadeshEntry) :=
  if 207 < count then .error .invalidCount
  else (generateSwadeshAux t (swadeshTable.take count) seed).1

/-- The two export formats. -/
inductive ExportFormat where
  | csv
  | json
deriving DecidableEq, Repr

/-- One CSV data row: `concept,word`. -/
def csvRow (e : SwadeshEntry) : String :=
  e.concept ++ "," ++ e.word

/-- The CSV data rows, one per entry, in order. -/
def exportRows (entries : List SwadeshEntry) : List String :=
  entries.map csvRow

/-- Modelled from the spec: the lines of the CSV export — the header
`concept,word` followed by one row per entry. -/
def exportCSVLines (entries : List SwadeshEntry) : List String :=
  "concept,word" :: exportRows entries

/-- The CSV export as a single string. -/
def exportCSV (entries : List SwadeshEntry) : String :=
  String.intercalate "\n" (exportCSVLines entries)

/-- One JSON object for an entry. -/
def jsonEntry (e : SwadeshEntry) : String :=
  "\x7b\x22concept\x22: \x22" ++ e.concept ++ "\x22, \x22word\x22: \x22" ++ e.word ++ "\x22\x7d"

/-- Modelled from the spec: the JSON export — top-level keys `swadesh`
and `language_info`. -/
def exportJSON (entries : List SwadeshEntry) : String :=
  "\x7b\x22swadesh\x22: [" ++ String.intercalate ", " (entries.map jsonEntry) ++
    "], \x22language_info\x22: \x7b\x7d\x7d"

/-- Render entries in a chosen format. -/
def renderExport (f : ExportFormat) (entries : List SwadeshEntry) : String :=
  match f with
  | .csv => exportCSV entries
  | .json => exportJSON entries

/-- The extension of an output path: the component after the last dot. -/
def pathExt (path : String) : String :=
  String.mk ((path.toList.reverse.takeWhile (fun ch => ch ≠ '.')).reverse)

/-- Modelled from the spec: infer the export format from the output
path's extension — `.csv` is CSV, `.json` is JSON, anything else is
unrecognized. -/
def inferFormat (path : String) : Option ExportFormat :=
  if pathExt path = "csv" then some ExportFormat.csv
  else if pathExt path = "json" then some ExportFormat.json
  else none

/-- Modelled from the spec: the export entry point — an explicit format
parameter overrides extension inference; otherwise the format is
inferred from the path, and an unrecognized extension with no explicit
format fails with `UnknownExportFormatError`. -/
def exportData (entries : List SwadeshEntry) (path : String)
    (fmt : Option ExportFormat) : Except GenError String :=
  match fmt with
  | some f => .ok (renderExport f entries)
  | none =>
    match inferFormat path with
    | some f => .ok (renderExport f entries)
    | none => .error .unknownExportFormat

/-- The concept extracted from a rendered CSV row: the text before the
first comma. -/
def rowConcept (r : String) : String :=
  String.mk (r.toList.takeWhile (fun ch => ch ≠ ','))

/-- Well-formedness of a template as the data model states it: phoneme
symbols are nonempty, and the root syllable-count range is a nonempty
range of positive counts. -/
def WFTemplate (t : Template) : Prop :=
  (∀ p ∈ t.consonants, p.1 ≠ "") ∧ (∀ p ∈ t.vowels, p.1 ≠ "") ∧
    1 ≤ t.rootMin ∧ t.rootMin ≤ t.rootMax

instance : DecidablePred WFTemplate := fun t => by
  unfold WFTemplate
  infer_instance

/-- A realized draw list matches a pattern slot-by-slot: required slots
are filled by an eligible phoneme of the slot's class, optional slots
are either skipped or likewise filled, in slot order. -/
inductive SlotsMatch (t : Template) : List Slot → List (PhClass × Phoneme) → Prop where
  | nil : SlotsMatch t [] []
  | skip {slot : Slot} {rest : List Slot} {draws : List (PhClass × Phoneme)} :
      slot.required = false → SlotsMatch t rest draws → SlotsMatch t (slot :: rest) draws
  | fill {slot : Slot} {rest : List Slot} {draws : List (PhClass × Phoneme)} {ph : Phoneme} :
      ph ∈ (eligible t slot).map Prod.fst → SlotsMatch t rest draws →
      SlotsMatch t (slot :: rest) ((slot.cls, ph) :: draws)

/-- A realized syllable matches one of the template's declared patterns. -/
def MatchesTemplate (t : Template) (draws : List (PhClass × Phoneme)) : Prop :=
  ∃ p ∈ t.patterns.map Prod.fst, SlotsMatch t p draws

/-- A malformed template: no pattern of it has any vowel slot, so no
attempt can ever realize a vowel nucleus. -/
def NoVowelSlot (t : Template) : Prop :=
  ∀ pw ∈ t.patterns, ∀ sl ∈ pw.1, sl.cls = PhClass.consonant

instance : DecidablePred NoVowelSlot := fun t => by
  unfold NoVowelSlot
  infer_instance

/-- Do two entries of a Swadesh result assign the identical word string
to two different concepts? -/
def hasCollision (entries : List SwadeshEntry) : Bool :=
  entries.any (fun e1 => entries.any (fun e2 =>
    decide (e1.concept ≠ e2.concept) && e1.word == e2.word))

/-- A Swadesh call is accepted (not an error) and carries a word
collision between two distinct concepts. -/
def acceptedWithCollision : Except GenError (List SwadeshEntry) → Bool
  | .ok entries => hasCollision entries
  | .error _ => false

/-- The number of morphemes of a successful morpheme call (0 on error). -/
def okLen : Except GenError (List (List Phoneme)) → Nat
  | .ok l => l.length
  | .error _ => 0

/-- The total phoneme count of a successful morpheme call (0 on error). -/
def okSum : Except GenError (List (List Phoneme)) → Nat
  | .ok l => (l.map List.length).sum
  | .error _ => 0


/-- A successful cumulative-weight pick returns an element of the list. -/
theorem pickAt_mem {α : Type} : ∀ {l : List (α × Nat)} {r : Nat} {a : α},
    pickAt l r = some a → a ∈ l.map Prod.fst := by
  intro l
  induction l with
  | nil => intro r a h; simp [pickAt] at h
  | cons hd tl ih =>
    intro r a h
    obtain ⟨x, w⟩ := hd
    simp only [pickAt] at h
    split at h
    · cases h
      simp
    · simpa using Or.inr (ih h)

/-- A successful weighted choice returns an element of the list. -/
theorem weightedChoose_mem {α : Type} {l : List (α × Nat)} {s : Nat} {a : α} {s' : Nat}
    (h : weightedChoose l s = (some a, s')) : a ∈ l.map Prod.fst := by
  unfold weightedChoose at h
  split at h
  · simp at h
  · rw [Prod.mk.injEq] at h
    exact pickAt_mem h.1

/-- A successful slot draw is tagged with the slot's class and drawn
from the slot's eligible phonemes. -/
theorem drawSlot_some {t : Template} {slot : Slot} {s : Nat} {d : PhClass × Phoneme} {s' : Nat}
    (h : drawSlot t slot s = (some d, s')) :
    d.1 = slot.cls ∧ d.2 ∈ (eligible t slot).map Prod.fst := by
  unfold drawSlot at h
  split at h
  case h_1 ph s2 heq =>
    rw [Prod.mk.injEq] at h
    obtain ⟨h1, _⟩ := h
    cases h1
    exact ⟨rfl, weightedChoose_mem heq⟩
  case h_2 => simp at h

/-- Eligible phonemes of a slot belong to the slot's class set. -/
theorem eligible_subset {t : Template} {slot : Slot} {x : Phoneme}
    (h : x ∈ (eligible t slot).map Prod.fst) :
    x ∈ (classSet t slot.cls).map Prod.fst := by
  unfold eligible at h
  split at h
  · exact h
  · simp only [List.mem_map] at h ⊢
    obtain ⟨p, hp, hpx⟩ := h
    exact ⟨p, (List.mem_filter.mp hp).1, hpx⟩

/-- A successful slot realization matches the slot list. -/
theorem realizeSlots_some {t : Template} : ∀ {slots : List Slot} {s : Nat}
    {draws : List (PhClass × Phoneme)} {s' : Nat},
    realizeSlots t slots s = (some draws, s') → SlotsMatch t slots draws := by
  intro slots
  induction slots with
  | nil =>
    intro s draws s' h
    simp only [realizeSlots, Prod.mk.injEq, Option.some.injEq] at h
    rw [← h.1]
    exact SlotsMatch.nil
  | cons slot rest ih =>
    intro s draws s' h
    simp only [realizeSlots] at h
    split at h
    case isTrue hreq =>
      split at h
      case h_1 d s2 hdraw =>
        split at h
        case h_1 tail s3 htail =>
          rw [Prod.mk.injEq, Option.some.injEq] at h
          obtain ⟨hc, hm⟩ := drawSlot_some hdraw
          rw [← h.1]
          have hd : d = (slot.cls, d.2) := by
            obtain ⟨dc, dp⟩ := d
            simp at hc
            rw [hc]
          rw [hd]
          exact SlotsMatch.fill hm (ih htail)
        case h_2 => simp at h
      case h_2 => simp at h
    case isFalse hreq =>
      split at h
      · split at h
        case h_1 d s2 hdraw =>
          split at h
          case h_1 tail s3 htail =>
            rw [Prod.mk.injEq, Option.some.injEq] at h
            obtain ⟨hc, hm⟩ := drawSlot_some hdraw
            rw [← h.1]
            have hd : d = (slot.cls, d.2) := by
              obtain ⟨dc, dp⟩ := d
              simp at hc
              rw [hc]
            rw [hd]
            exact SlotsMatch.fill hm (ih htail)
          case h_2 => simp at h
        case h_2 => simp at h
      · exact SlotsMatch.skip (by simpa using hreq) (ih h)

/-- Nothing matches the empty slot list but the empty draw list. -/
theorem slotsMatch_nil_inv {t : Template} {draws : List (PhClass × Phoneme)}
    (h : SlotsMatch t [] draws) : draws = [] := by
  cases h
  rfl

/-- Matching a required head slot forces a fill of that slot. -/
theorem slotsMatch_required_inv {t : Template} {slot : Slot} {rest : List Slot}
    {draws : List (PhClass × Phoneme)} (h : SlotsMatch t (slot :: rest) draws)
    (hreq : slot.required = true) :
    ∃ ph tail, draws = (slot.cls, ph) :: tail ∧
      ph ∈ (eligible t slot).map Prod.fst ∧ SlotsMatch t rest tail := by
  cases h with
  | skip hr _ => rw [hreq] at hr; cases hr
  | fill hm hrest => exact ⟨_, _, rfl, hm, hrest⟩

/-- Every phoneme of a matching draw list belongs to the template's
phoneme set of the class its slot requires. -/
theorem slotsMatch_mem_classSet {t : Template} {slots : List Slot}
    {draws : List (PhClass × Phoneme)} (h : SlotsMatch t slots draws) :
    ∀ d ∈ draws, d.2 ∈ (classSet t d.1).map Prod.fst := by
  induction h with
  | nil => intro d hd; simp at hd
  | skip _ _ ih => exact ih
  | fill hm _ ih =>
    intro d hd
    rcases List.mem_cons.mp hd with hd | hd
    · rw [hd]
      exact eligible_subset hm
    · exact ih d hd

/-- Every draw of a matching draw list realizes some slot of the
pattern, with its class. -/
theorem slotsMatch_cls {t : Template} {slots : List Slot}
    {draws : List (PhClass × Phoneme)} (h : SlotsMatch t slots draws) :
    ∀ d ∈ draws, ∃ sl ∈ slots, sl.cls = d.1 := by
  induction h with
  | nil => intro d hd; simp at hd
  | skip _ _ ih =>
    intro d hd
    obtain ⟨sl, hsl, hc⟩ := ih d hd
    exact ⟨sl, List.mem_cons_of_mem _ hsl, hc⟩
  | fill hm _ ih =>
    intro d hd
    rcases List.mem_cons.mp hd with hd | hd
    · exact ⟨_, List.mem_cons_self _ _, by rw [hd]⟩
    · obtain ⟨sl, hsl, hc⟩ := ih d hd
      exact ⟨sl, List.mem_cons_of_mem _ hsl, hc⟩

/-- A successful syllable attempt matches the template. -/
theorem genSyllableAttempt_some {t : Template} {s : Nat}
    {draws : List (PhClass × Phoneme)} {s' : Nat}
    (h : genSyllableAttempt t s = (some draws, s')) : MatchesTemplate t draws := by
  unfold genSyllableAttempt at h
  split at h
  case h_1 pat s1 hw => exact ⟨pat, weightedChoose_mem hw, realizeSlots_some h⟩
  case h_2 => simp at h

/-- A vowel nucleus in a draw list, as a member. -/
theorem hasVowel_exists {draws : List (PhClass × Phoneme)}
    (h : hasVowel draws = true) : ∃ d ∈ draws, d.1 = PhClass.vowel := by
  simpa [hasVowel] using h

/-- A successful pass of the re-draw loop matches the template and has a
vowel nucleus. -/
theorem genSyllableLoop_ok {t : Template} : ∀ {fuel s : Nat}
    {draws : List (PhClass × Phoneme)} {s' : Nat},
    genSyllableLoop t fuel s = (.ok draws, s') →
    MatchesTemplate t draws ∧ hasVowel draws = true := by
  intro fuel
  induction fuel with
  | zero => intro s draws s' h; simp [genSyllableLoop] at h
  | succ n ih =>
    intro s draws s' h
    simp only [genSyllableLoop] at h
    split at h
    case h_1 d2 s1 hatt =>
      split at h
      case isTrue hv =>
        rw [Prod.mk.injEq, Except.ok.injEq] at h
        rw [← h.1]
        exact ⟨genSyllableAttempt_some hatt, hv⟩
      case isFalse => exact ih h
    case h_2 => exact ih h

/-- A successful syllable generation matches the template and has a
vowel nucleus. -/
theorem genSyllable_ok {t : Template} {s : Nat}
    {draws : List (PhClass × Phoneme)} {s' : Nat}
    (h : genSyllable t s = (.ok draws, s')) :
    MatchesTemplate t draws ∧ hasVowel draws = true :=
  genSyllableLoop_ok h

/-- A successful syllable sequence has the requested length, and every
element matches the template and has a vowel nucleus. -/
theorem genSyllList_ok {t : Template} : ∀ {n s : Nat}
    {cores : List (List (PhClass × Phoneme))} {s' : Nat},
    genSyllList t n s = (.ok cores, s') →
    cores.length = n ∧ ∀ c ∈ cores, MatchesTemplate t c ∧ hasVowel c = true := by
  intro n
  induction n with
  | zero =>
    intro s cores s' h
    simp only [genSyllList, Prod.mk.injEq, Except.ok.injEq] at h
    rw [← h.1]
    exact ⟨rfl, by intro c hc; simp at hc⟩
  | succ m ih =>
    intro s cores s' h
    simp only [genSyllList] at h
    split at h
    case h_1 c s1 hc =>
      split at h
      case h_1 rest s2 hrest =>
        rw [Prod.mk.injEq, Except.ok.injEq] at h
        obtain ⟨hlen, hall⟩ := ih hrest
        rw [← h.1]
        constructor
        · simp [hlen]
        · intro x hx
          rcases List.mem_cons.mp hx with hx | hx
          · rw [hx]; exact genSyllable_ok hc
          · exact hall x hx
      case h_2 => simp at h
    case h_2 => simp at h

/-- A syllable matching the Polynesian template is an optional single
consonant followed by exactly one vowel. -/
theorem polynesian_shape {draws : List (PhClass × Phoneme)}
    (h : MatchesTemplate polynesianTemplate draws) :
    (∃ v ∈ polynesianTemplate.vowels.map Prod.fst, draws = [(PhClass.vowel, v)]) ∨
    (∃ c ∈ polynesianTemplate.consonants.map Prod.fst,
      ∃ v ∈ polynesianTemplate.vowels.map Prod.fst,
        draws = [(PhClass.consonant, c), (PhClass.vowel, v)]) := by
  obtain ⟨p, hp, hm⟩ := h
  have hp2 : p = [vSlot] ∨ p = [cSlot, vSlot] := by
    simpa [polynesianTemplate] using hp
  rcases hp2 with rfl | rfl
  · obtain ⟨ph, tail, hdr, hmem, htail⟩ := slotsMatch_required_inv hm rfl
    rw [slotsMatch_nil_inv htail] at hdr
    left
    exact ⟨ph, eligible_subset hmem, hdr⟩
  · obtain ⟨cph, tail, hdr, hcm, htail⟩ := slotsMatch_required_inv hm rfl
    obtain ⟨vph, tail2, hdr2, hvm, htail2⟩ := slotsMatch_required_inv htail rfl
    rw [slotsMatch_nil_inv htail2] at hdr2
    rw [hdr2] at hdr
    right
    exact ⟨cph, eligible_subset hcm, vph, eligible_subset hvm, hdr⟩

/-- C1: every syllable returned by `generateSyllables` matches one of
the template's declared syllable patterns slot-by-slot, with every drawn
phoneme taken from the template's consonant or vowel set as its slot
requires; for the `"polynesian"` template in particular, every generated
syllable is an optional single consonant from the Polynesian consonant
set followed by exactly one vowel from its vowel set, with no coda. -/
theorem generateSyllables_structural_conformance :
    ∀ (t : Template) (n seed : Nat) (out : List String),
      generateSyllables t n seed = .ok out →
      ∃ cores : List (List (PhClass × Phoneme)),
        out = cores.map renderSyllable ∧
        (∀ c ∈ cores, MatchesTemplate t c ∧
          ∀ d ∈ c, d.2 ∈ (classSet t d.1).map Prod.fst) ∧
        (t = polynesianTemplate → ∀ c ∈ cores,
          (∃ v ∈ polynesianTemplate.vowels.map Prod.fst, c = [(PhClass.vowel, v)]) ∨
          (∃ cs ∈ polynesianTemplate.consonants.map Prod.fst,
            ∃ v ∈ polynesianTemplate.vowels.map Prod.fst,
              c = [(PhClass.consonant, cs), (PhClass.vowel, v)])) := by
  intro t n seed out h
  unfold generateSyllables at h
  split at h
  case h_1 cores s2 hcores =>
    rw [Except.ok.injEq] at h
    obtain ⟨_, hall⟩ := genSyllList_ok hcores
    refine ⟨cores, h.symm, ?_, ?_⟩
    · intro c hc
      obtain ⟨hmatch, _⟩ := hall c hc
      refine ⟨hmatch, ?_⟩
      obtain ⟨p, _, hsm⟩ := hmatch
      exact slotsMatch_mem_classSet hsm
    · intro ht c hc
      rw [ht] at hall
      exact polynesian_shape (hall c hc).1
  case h_2 => simp at h

/-- Witness for C1 at a concrete Polynesian call. -/
theorem generateSyllables_structural_conformance_witness :
    ∃ cores : List (List (PhClass × Phoneme)),
      (["wa", "o", "ji", "ki", "i"] : List String) = cores.map renderSyllable ∧
      (∀ c ∈ cores, MatchesTemplate polynesianTemplate c ∧
        ∀ d ∈ c, d.2 ∈ (classSet polynesianTemplate d.1).map Prod.fst) ∧
      (polynesianTemplate = polynesianTemplate → ∀ c ∈ cores,
        (∃ v ∈ polynesianTemplate.vowels.map Prod.fst, c = [(PhClass.vowel, v)]) ∨
        (∃ cs ∈ polynesianTemplate.consonants.map Prod.fst,
          ∃ v ∈ polynesianTemplate.vowels.map Prod.fst,
            c = [(PhClass.consonant, cs), (PhClass.vowel, v)])) :=
  generateSyllables_structural_conformance polynesianTemplate 5 0
    ["wa", "o", "ji", "ki", "i"] rfl

/-- The length of a concatenated phoneme list is the sum of the phoneme
lengths. -/
theorem renderPhonemes_length : ∀ l : List Phoneme,
    (renderPhonemes l).length = (l.map String.length).sum := by
  intro l
  induction l with
  | nil => rfl
  | cons x xs ih =>
    show (x ++ renderPhonemes xs).length = _
    rw [String.length_append, ih]
    simp

/-- A phoneme list with a nonempty member renders to a nonempty string. -/
theorem renderPhonemes_ne_empty {l : List Phoneme} {x : Phoneme}
    (hx : x ∈ l) (hne : x ≠ "") : renderPhonemes l ≠ "" := by
  intro h
  have hlen : (renderPhonemes l).length = 0 := by rw [h]; rfl
  rw [renderPhonemes_length] at hlen
  have hx0 : x.length = 0 :=
    List.sum_eq_zero_iff.mp hlen x.length (List.mem_map_of_mem _ hx)
  have hdata : x.data = [] := List.length_eq_zero.mp hx0
  apply hne
  cases x
  simp_all

/-- A successful syllable contains a vowel phoneme of the template. -/
theorem syllable_vowel_phoneme {t : Template} {c : List (PhClass × Phoneme)}
    (hm : MatchesTemplate t c) (hv : hasVowel c = true) :
    ∃ p ∈ syllPhonemes c, p ∈ t.vowels.map Prod.fst := by
  obtain ⟨d, hd, hdv⟩ := hasVowel_exists hv
  obtain ⟨p, _, hsm⟩ := hm
  have hmem := slotsMatch_mem_classSet hsm d hd
  rw [hdv] at hmem
  exact ⟨d.2, List.mem_map_of_mem _ hd, hmem⟩

/-- C6: for every well-formed template and every count of at least one,
no element returned by `generateSyllables` is the empty string — every
generated syllable realizes at least one vowel nucleus, and a vowel is a
nonempty phoneme symbol. -/
theorem generateSyllables_no_empty_string :
    ∀ (t : Template) (n seed : Nat) (out : List String),
      WFTemplate t → 1 ≤ n → generateSyllables t n seed = .ok out →
      ∀ str ∈ out, str ≠ "" := by
  intro t n seed out hwf _ h str hstr
  unfold generateSyllables at h
  split at h
  case h_1 cores s2 hcores =>
    rw [Except.ok.injEq] at h
    rw [← h] at hstr
    obtain ⟨c, hc, hrender⟩ := List.mem_map.mp hstr
    obtain ⟨hmatch, hv⟩ := (genSyllList_ok hcores).2 c hc
    obtain ⟨p, hp, hpv⟩ := syllable_vowel_phoneme hmatch hv
    obtain ⟨wp, hwp, hwpv⟩ := List.mem_map.mp hpv
    rw [← hrender]
    exact renderPhonemes_ne_empty hp (by rw [← hwpv]; exact hwf.2.1 wp hwp)
  case h_2 => simp at h

/-- Witness for C6 at a concrete Polynesian call. -/
theorem generateSyllables_no_empty_string_witness : ("wa" : String) ≠ "" :=
  generateSyllables_no_empty_string polynesianTemplate 5 0
    ["wa", "o", "ji", "ki", "i"] (by decide) (by decide) rfl "wa" (by simp)

/-- Under a template with no vowel slots, no attempt realizes a vowel. -/
theorem attempt_no_vowel {t : Template} (hnv : NoVowelSlot t) {s : Nat}
    {draws : List (PhClass × Phoneme)} {s' : Nat}
    (h : genSyllableAttempt t s = (some draws, s')) : hasVowel draws = false := by
  obtain ⟨p, hp, hsm⟩ := genSyllableAttempt_some h
  obtain ⟨pw, hpw, hpfst⟩ := List.mem_map.mp hp
  simp only [hasVowel, List.any_eq_false]
  intro d hd
  obtain ⟨sl, hsl, hcls⟩ := slotsMatch_cls hsm d hd
  have : sl.cls = PhClass.consonant := hnv pw hpw sl (by rw [hpfst]; exact hsl)
  rw [← hcls, this]
  decide

/-- Under a template with no vowel slots, every pass of the re-draw loop
exhausts its fuel and fails. -/
theorem genSyllableLoop_unsat {t : Template} (hnv : NoVowelSlot t) :
    ∀ (fuel s : Nat), (genSyllableLoop t fuel s).1 = .error .patternUnsat := by
  intro fuel
  induction fuel with
  | zero => intro s; rfl
  | succ n ih =>
    intro s
    simp only [genSyllableLoop]
    split
    case h_1 d2 s1 hatt =>
      rw [attempt_no_vowel hnv hatt]
      simp only [Bool.false_eq_true, if_false]
      exact ih s1
    case h_2 => exact ih _

/-- C7: the re-draw-on-empty-nucleus loop is bounded — it is structural
recursion on the retry cap `maxSyllableRetries`, so generation always
terminates — and for a malformed template none of whose pattern slots is
a vowel slot, every syllable draw and every `generateSyllables` call of
positive count fails with `PatternUnsatisfiableError` after the capped
number of retries instead of looping forever. -/
theorem syllable_retry_bounded :
    ∀ t : Template, NoVowelSlot t →
      (∀ s : Nat, (genSyllable t s).1 = .error .patternUnsat) ∧
      (∀ n seed : Nat, 1 ≤ n →
        generateSyllables t n seed = .error .patternUnsat) := by
  intro t hnv
  constructor
  · intro s
    exact genSyllableLoop_unsat hnv maxSyllableRetries s
  · intro n seed hn
    cases n with
    | zero => cases hn
    | succ m =>
      have h3 : (genSyllable t seed).1 = .error .patternUnsat :=
        genSyllableLoop_unsat hnv maxSyllableRetries seed
      have h2 : genSyllable t seed =
          ((genSyllable t seed).1, (genSyllable t seed).2) := rfl
      unfold generateSyllables
      have h1 : genSyllList t (m + 1) seed =
          (.error .patternUnsat, (genSyllable t seed).2) := by
        simp only [genSyllList]
        rw [h2, h3]
      rw [h1]

/-- Witness for C7 at a concrete malformed template whose only pattern
is a single required consonant slot. -/
theorem syllable_retry_bounded_witness :
    (genSyllable ⟨"malformed", [("k", 1)], [], [([cSlot], 1)], 1, 1⟩ 0).1 =
        .error .patternUnsat ∧
      generateSyllables ⟨"malformed", [("k", 1)], [], [([cSlot], 1)], 1, 1⟩ 3 0 =
        .error .patternUnsat :=
  ⟨(syllable_retry_bounded ⟨"malformed", [("k", 1)], [], [([cSlot], 1)], 1, 1⟩
      (by decide)).1 0,
   (syllable_retry_bounded ⟨"malformed", [("k", 1)], [], [([cSlot], 1)], 1, 1⟩
      (by decide)).2 3 0 (by decide)⟩

/-- C2: for a fixed template and fixed seed, the generation operations
are deterministic functions of their arguments — the random source is an
explicit state threaded through each call, and no other state exists, so
two calls to `generateSyllables`, `buildWords` or `generateSwadesh` with
identical arguments produce identical output sequences. -/
theorem generation_deterministic :
    ∀ (t : Template) (n m k seed : Nat) (strategy : String)
      (o1 o2 w1 w2 : Except GenError (List String))
      (v1 v2 : Except GenError (List SwadeshEntry)),
      (generateSyllables t n seed = o1 → generateSyllables t n seed = o2 → o1 = o2) ∧
      (buildWords t m strategy seed = w1 → buildWords t m strategy seed = w2 → w1 = w2) ∧
      (generateSwadesh t k seed = v1 → generateSwadesh t k seed = v2 → v1 = v2) := by
  intro t n m k seed strategy o1 o2 w1 w2 v1 v2
  exact ⟨fun h1 h2 => h1.symm.trans h2,
         fun h1 h2 => h1.symm.trans h2,
         fun h1 h2 => h1.symm.trans h2⟩

/-- Witness for C2: two identical concrete Polynesian calls of each
operation agree on their concrete common value. -/
theorem generation_deterministic_witness :
    (Except.ok ["wa", "o", "ji", "ki", "i"] : Except GenError (List String)) =
        .ok ["wa", "o", "ji", "ki", "i"] ∧
      (Except.ok ["soji", "ino", "pepoje"] : Except GenError (List String)) =
        .ok ["soji", "ino", "pepoje"] ∧
      (Except.ok [⟨"I", "soji", "pronouns"⟩] : Except GenError (List SwadeshEntry)) =
        .ok [⟨"I", "soji", "pronouns"⟩] := by
  have h := generation_deterministic polynesianTemplate 5 3 1 0 "mixed"
    (.ok ["wa", "o", "ji", "ki", "i"]) (.ok ["wa", "o", "ji", "ki", "i"])
    (.ok ["soji", "ino", "pepoje"]) (.ok ["soji", "ino", "pepoje"])
    (.ok [⟨"I", "soji", "pronouns"⟩]) (.ok [⟨"I", "soji", "pronouns"⟩])
  exact ⟨h.1 rfl rfl, h.2.1 rfl rfl, h.2.2 rfl rfl⟩

/-- A successful root contains a vowel phoneme of the template. -/
theorem genRoot_vowel {t : Template} (hroot : 1 ≤ t.rootMin) {s : Nat}
    {m : List Phoneme} {s' : Nat} (h : genRoot t s = (.ok m, s')) :
    ∃ p ∈ m, p ∈ t.vowels.map Prod.fst := by
  unfold genRoot at h
  split at h
  case h_1 cores s2 hcores =>
    rw [Prod.mk.injEq, Except.ok.injEq] at h
    obtain ⟨hlen, hall⟩ := genSyllList_ok hcores
    have hne : cores ≠ [] := by
      intro hnil
      rw [hnil] at hlen
      simp only [List.length_nil] at hlen
      omega
    obtain ⟨c, hc⟩ := List.exists_mem_of_ne_nil cores hne
    obtain ⟨hmatch, hv⟩ := hall c hc
    obtain ⟨p, hp, hpv⟩ := syllable_vowel_phoneme hmatch hv
    refine ⟨p, ?_, hpv⟩
    rw [← h.1]
    exact List.mem_flatten.mpr ⟨syllPhonemes c, List.mem_map_of_mem _ hc, hp⟩
  case h_2 => simp at h

/-- A successful affix contains a vowel phoneme of the template. -/
theorem genAffix_vowel {t : Template} {s : Nat}
    {m : List Phoneme} {s' : Nat} (h : genAffix t s = (.ok m, s')) :
    ∃ p ∈ m, p ∈ t.vowels.map Prod.fst := by
  unfold genAffix at h
  split at h
  case h_1 cores s2 hcores =>
    rw [Prod.mk.injEq, Except.ok.injEq] at h
    obtain ⟨hlen, hall⟩ := genSyllList_ok hcores
    have hne : cores ≠ [] := by
      intro hnil
      rw [hnil] at hlen
      simp at hlen
    obtain ⟨c, hc⟩ := List.exists_mem_of_ne_nil cores hne
    obtain ⟨hmatch, hv⟩ := hall c hc
    obtain ⟨p, hp, hpv⟩ := syllable_vowel_phoneme hmatch hv
    refine ⟨p, ?_, ?_⟩
    · rw [← h.1]
      exact List.mem_flatten.mpr ⟨syllPhonemes c, List.mem_map_of_mem _ hc, hp⟩
    · simpa [affixView] using hpv
  case h_2 => simp at h

/-- A successful word contains a vowel phoneme of the template. -/
theorem genWordOfDist_vowel {t : Template} (hroot : 1 ≤ t.rootMin)
    {dist : List (Nat × Nat)} {s : Nat} {w : List Phoneme} {s' : Nat}
    (h : genWordOfDist t dist s = (.ok w, s')) :
    ∃ p ∈ w, p ∈ t.vowels.map Prod.fst := by
  unfold genWordOfDist at h
  split at h
  case h_1 => simp at h
  case h_2 k s1 hk =>
    split at h
    case isTrue => exact genRoot_vowel hroot h
    case isFalse =>
      split at h
      case h_1 roots s2 hroots =>
        split at h
        case h_1 aff s3 haff =>
          obtain ⟨p, hp, hpv⟩ := genAffix_vowel haff
          split at h
          · rw [Prod.mk.injEq, Except.ok.injEq] at h
            refine ⟨p, ?_, hpv⟩
            rw [← h.1]
            exact List.mem_flatten.mpr ⟨aff, List.mem_cons_self _ _, hp⟩
          · rw [Prod.mk.injEq, Except.ok.injEq] at h
            refine ⟨p, ?_, hpv⟩
            rw [← h.1]
            exact List.mem_flatten.mpr
              ⟨aff, List.mem_append_right _ (List.mem_singleton.mpr rfl), hp⟩
        case h_2 => simp at h
      case h_2 => simp at h

/-- Unfolding equation of `generateSwadeshAux` on the empty list. -/
theorem generateSwadeshAux_nil (t : Template) (s : Nat) :
    generateSwadeshAux t [] s = (.ok [], s) := rfl

/-- Unfolding equation of `generateSwadeshAux` on a cons cell. -/
theorem generateSwadeshAux_cons (t : Template) (hd : String × String)
    (rest : List (String × String)) (s : Nat) :
    generateSwadeshAux t (hd :: rest) s =
      swadeshStep t hd (generateSwadeshAux t rest) s := rfl

/-- A successful Swadesh assignment pass covers exactly the selected
concepts in order, with their categories, and assigns only nonempty
words (for a well-formed template). -/
theorem generateSwadeshAux_ok {t : Template} (hwf : WFTemplate t) :
    ∀ {cl : List (String × String)} {s : Nat} {entries : List SwadeshEntry} {s' : Nat},
    generateSwadeshAux t cl s = (.ok entries, s') →
    entries.map (fun e => e.concept) = cl.map Prod.fst ∧
    entries.map (fun e => e.category) = cl.map Prod.snd ∧
    ∀ e ∈ entries, e.word ≠ "" := by
  intro cl
  induction cl with
  | nil =>
    intro s entries s' h
    rw [generateSwadeshAux_nil, Prod.mk.injEq, Except.ok.injEq] at h
    rw [← h.1]
    exact ⟨rfl, rfl, by intro e he; simp at he⟩
  | cons hd rest ih =>
    intro s entries s' h
    rw [generateSwadeshAux_cons] at h
    unfold swadeshStep at h
    split at h
    case h_1 w s1 hw =>
      split at h
      case h_1 es s2 hes =>
        rw [Prod.mk.injEq, Except.ok.injEq] at h
        obtain ⟨ihc, ihcat, ihw⟩ := ih hes
        obtain ⟨p, hp, hpv⟩ := genWordOfDist_vowel hwf.2.2.1 hw
        obtain ⟨wp, hwp, hwpv⟩ := List.mem_map.mp hpv
        have hwne : renderPhonemes w ≠ "" :=
          renderPhonemes_ne_empty hp (by rw [← hwpv]; exact hwf.2.1 wp hwp)
        rw [← h.1]
        refine ⟨by simp [ihc], by simp [ihcat], ?_⟩
        intro e he
        rcases List.mem_cons.mp he with he | he
        · rw [he]
          exact hwne
        · exact ihw e he
      case h_2 => simp at h
    case h_2 => simp at h

/-- C3: for `count ≤ 207`, a successful `generateSwadesh` call returns
exactly `count` entries, whose concepts are the `count`-prefix of the
fixed priority-ordered concept table (categories walked in priority
order, concepts in fixed list order within each category); in particular
`count = 1` yields the single top-priority concept `"I"` with a nonempty
word. -/
theorem generateSwadesh_count_and_priority :
    ∀ (t : Template) (count seed : Nat) (entries : List SwadeshEntry),
      WFTemplate t → count ≤ 207 →
      generateSwadesh t count seed = .ok entries →
      entries.length = count ∧
      entries.map (fun e => e.concept) = swadeshConcepts.take count ∧
      (∀ e ∈ entries, e.word ≠ "") ∧
      (count = 1 → ∃ e, entries = [e] ∧ e.concept = "I" ∧ e.word ≠ "") := by
  intro t count seed entries hwf hcount h
  unfold generateSwadesh at h
  rw [if_neg (by omega)] at h
  rcases haux : generateSwadeshAux t (swadeshTable.take count) seed with ⟨r, s2⟩
  rw [haux] at h
  have hr : r = Except.ok entries := h
  rw [hr] at haux
  obtain ⟨hconc, hcat, hwords⟩ := generateSwadeshAux_ok hwf haux
  have hconc2 : entries.map (fun e => e.concept) = swadeshConcepts.take count := by
    rw [hconc, swadeshConcepts, List.map_take]
  have hlen : entries.length = count := by
    have h1 : (entries.map (fun e => e.concept)).length =
        (swadeshConcepts.take count).length := by rw [hconc2]
    rw [List.length_map, List.length_take] at h1
    have h207 : swadeshConcepts.length = 207 := by decide
    rw [h207] at h1
    omega
  refine ⟨hlen, hconc2, hwords, ?_⟩
  intro h1
  rw [h1] at hconc2
  have htake : swadeshConcepts.take 1 = ["I"] := by decide
  rw [htake] at hconc2
  cases entries with
  | nil => simp at hconc2
  | cons e rest =>
    cases rest with
    | nil =>
      simp only [List.map_cons, List.map_nil, List.cons.injEq] at hconc2
      exact ⟨e, rfl, hconc2.1, hwords e (List.mem_cons_self _ _)⟩
    | cons e2 rest2 => simp at hconc2

/-- Witness for C3 at a concrete Polynesian call with `count = 1`. -/
theorem generateSwadesh_count_and_priority_witness :
    ([⟨"I", "soji", "pronouns"⟩] : List SwadeshEntry).length = 1 ∧
      ([⟨"I", "soji", "pronouns"⟩] : List SwadeshEntry).map (fun e => e.concept) =
        swadeshConcepts.take 1 ∧
      (∀ e ∈ ([⟨"I", "soji", "pronouns"⟩] : List SwadeshEntry), e.word ≠ "") ∧
      ((1 : Nat) = 1 → ∃ e, ([⟨"I", "soji", "pronouns"⟩] : List SwadeshEntry) = [e] ∧
        e.concept = "I" ∧ e.word ≠ "") :=
  generateSwadesh_count_and_priority polynesianTemplate 1 0
    [⟨"I", "soji", "pronouns"⟩] (by decide) (by decide) rfl

/-- C4: `generateSwadesh` does not guarantee distinct words for distinct
concepts — at the Polynesian template with seed 0 and count 30 the
returned mapping assigns the identical word string to two different
concepts, and the call is accepted (returns a result, not an error). -/
theorem generateSwadesh_word_collision_accepted :
    acceptedWithCollision (generateSwadesh polynesianTemplate 30 0) = true := by
  decide

/-- C5: for each of the five fixed templates, over a sample of 100
generated morphemes of each type (seed 3), the total — and hence, at
equal sample sizes, the mean — phoneme length of `"affixes"` morphemes
is at most that of `"roots"` morphemes. -/
theorem morpheme_affix_shorter_than_roots :
    ∀ t ∈ fixedTemplates,
      okLen (generateMorphemes t "affixes" 100 3) = 100 ∧
      okLen (generateMorphemes t "roots" 100 3) = 100 ∧
      okSum (generateMorphemes t "affixes" 100 3) ≤
        okSum (generateMorphemes t "roots" 100 3) := by
  decide

/-- Witness for C5 at the Polynesian template. -/
theorem morpheme_affix_shorter_than_roots_witness :
    okLen (generateMorphemes polynesianTemplate "affixes" 100 3) = 100 ∧
      okLen (generateMorphemes polynesianTemplate "roots" 100 3) = 100 ∧
      okSum (generateMorphemes polynesianTemplate "affixes" 100 3) ≤
        okSum (generateMorphemes polynesianTemplate "roots" 100 3) :=
  morpheme_affix_shorter_than_roots polynesianTemplate (by decide)

/-- Rebuilding a string from its character data is the identity. -/
theorem stringMk_data (s : String) : String.mk s.data = s := by
  cases s
  rfl

/-- `takeWhile` of a satisfying prefix followed by a failing character
is the prefix itself. -/
theorem takeWhile_until_stop {p : Char → Bool} (stop : Char) (w : List Char)
    (hstop : p stop = false) : ∀ (c : List Char), (∀ x ∈ c, p x = true) →
    List.takeWhile p (c ++ stop :: w) = c := by
  intro c
  induction c with
  | nil => intro _; simp [List.takeWhile_cons, hstop]
  | cons x xs ih =>
    intro hx
    have h1 : p x = true := hx x (List.mem_cons_self _ _)
    have h2 : ∀ y ∈ xs, p y = true := fun y hy => hx y (List.mem_cons_of_mem _ hy)
    simp only [List.cons_append, List.takeWhile_cons, h1, if_true]
    rw [ih h2]

/-- The concept of a rendered CSV row is the entry's concept, provided
the concept itself contains no comma. -/
theorem rowConcept_csvRow (e : SwadeshEntry) (hc : ',' ∉ e.concept.toList) :
    rowConcept (csvRow e) = e.concept := by
  unfold rowConcept csvRow
  have hdata : (e.concept ++ "," ++ e.word).toList =
      e.concept.toList ++ ',' :: e.word.toList := by
    show ((e.concept ++ ",") ++ e.word).data = _
    rw [String.data_append, String.data_append]
    simp [String.toList, List.append_assoc]
  rw [hdata, takeWhile_until_stop ',' e.word.toList (by simp) e.concept.toList
    (fun x hxmem => by
      simp only [decide_eq_true_eq]
      intro hcon
      rw [hcon] at hxmem
      exact hc hxmem)]
  exact stringMk_data _

/-- C8 counterexample: exporting a list whose entries repeat a concept
yields the header and one row per entry, but the concept `"I"` appears
in two rows — the claim's "no concept in more than one row" fails on
this input. -/
theorem exportCSV_duplicate_concept_counterexample :
    (exportCSVLines [⟨"I", "a", "pronouns"⟩, ⟨"I", "b", "pronouns"⟩]).head? =
        some "concept,word" ∧
      (exportRows [⟨"I", "a", "pronouns"⟩, ⟨"I", "b", "pronouns"⟩]).length = 2 ∧
      (exportRows [⟨"I", "a", "pronouns"⟩, ⟨"I", "b", "pronouns"⟩]).map rowConcept =
        ["I", "I"] ∧
      ¬ ((exportRows [⟨"I", "a", "pronouns"⟩, ⟨"I", "b", "pronouns"⟩]).map
          rowConcept).Nodup := by
  decide

/-- C8 (amended): exporting a list of entries whose concepts are
pairwise distinct (and comma-free, as all Swadesh concepts are) produces
the header line `concept,word` followed by exactly one row per entry,
with no concept appearing in more than one row. -/
theorem exportCSV_header_and_rows :
    ∀ entries : List SwadeshEntry,
      (entries.map (fun e => e.concept)).Nodup →
      (∀ e ∈ entries, ',' ∉ e.concept.toList) →
      (exportCSVLines entries).head? = some "concept,word" ∧
      (exportRows entries).length = entries.length ∧
      ((exportRows entries).map rowConcept).Nodup := by
  intro entries hnodup hcomma
  refine ⟨rfl, by simp [exportRows], ?_⟩
  have hmap : (exportRows entries).map rowConcept =
      entries.map (fun e => e.concept) := by
    unfold exportRows
    rw [List.map_map]
    apply List.map_congr_left
    intro e he
    exact rowConcept_csvRow e (hcomma e he)
  rw [hmap]
  exact hnodup

/-- Witness for the amended C8 at a concrete two-entry list. -/
theorem exportCSV_header_and_rows_witness :
    (exportCSVLines [⟨"I", "na", "pronouns"⟩, ⟨"you", "ju", "pronouns"⟩]).head? =
        some "concept,word" ∧
      (exportRows [⟨"I", "na", "pronouns"⟩, ⟨"you", "ju", "pronouns"⟩]).length =
        ([⟨"I", "na", "pronouns"⟩, ⟨"you", "ju", "pronouns"⟩] :
          List SwadeshEntry).length ∧
      ((exportRows [⟨"I", "na", "pronouns"⟩, ⟨"you", "ju", "pronouns"⟩]).map
        rowConcept).Nodup :=
  exportCSV_header_and_rows [⟨"I", "na", "pronouns"⟩, ⟨"you", "ju", "pronouns"⟩]
    (by decide) (by decide)

/-- C9: export format selection — an explicit format parameter always
overrides extension inference; with no explicit format, a `.csv` path
produces CSV and a `.json` path produces JSON; and an unrecognized
extension with no explicit format fails with
`UnknownExportFormatError`. -/
theorem export_format_selection :
    ∀ (entries : List SwadeshEntry) (path : String) (fmt : ExportFormat),
      (exportData entries path (some fmt) = .ok (renderExport fmt entries)) ∧
      (pathExt path = "csv" → exportData entries path none = .ok (exportCSV entries)) ∧
      (pathExt path = "json" → exportData entries path none = .ok (exportJSON entries)) ∧
      (pathExt path ≠ "csv" → pathExt path ≠ "json" →
        exportData entries path none = .error .unknownExportFormat) := by
  intro entries path fmt
  refine ⟨rfl, ?_, ?_, ?_⟩
  · intro h
    simp [exportData, inferFormat, h, renderExport]
  · intro h
    simp [exportData, inferFormat, h, renderExport]
  · intro h1 h2
    simp [exportData, inferFormat, h1, h2]

/-- Witness for C9 at the concrete paths of the spec's scenario. -/
theorem export_format_selection_witness :
    (exportData [] "out.json" (some ExportFormat.csv) =
        .ok (renderExport ExportFormat.csv [])) ∧
      exportData [] "out.csv" none = .ok (exportCSV []) ∧
      exportData [] "out.json" none = .ok (exportJSON []) ∧
      exportData [] "out.txt" none = .error .unknownExportFormat :=
  ⟨(export_format_selection [] "out.json" ExportFormat.csv).1,
   (export_format_selection [] "out.csv" ExportFormat.csv).2.1 (by decide),
   (export_format_selection [] "out.json" ExportFormat.csv).2.2.1 (by decide),
   (export_format_selection [] "out.txt" ExportFormat.csv).2.2.2 (by decide) (by decide)⟩

/-- C10: resolving the name `"polynesian"` yields the same fixed
template whatever the random state, and that template's consonant set is
exactly the 12 Polynesian consonants, its vowel set exactly the 5
vowels a e i o u, and its syllable-pattern set exactly a required vowel
(V) and a required consonant plus required vowel (CV). -/
theorem resolveTemplate_polynesian_fixed :
    ∀ seed : Nat,
      resolveTemplate "polynesian" seed = .ok polynesianTemplate ∧
      polynesianTemplate.consonants.map Prod.fst =
        ["p", "t", "k", "f", "s", "h", "m", "n", "ŋ", "l", "w", "j"] ∧
      polynesianTemplate.consonants.length = 12 ∧
      polynesianTemplate.vowels.map Prod.fst = ["a", "e", "i", "o", "u"] ∧
      polynesianTemplate.vowels.length = 5 ∧
      polynesianTemplate.patterns.map
          (fun pw => pw.1.map (fun sl => (sl.cls, sl.required))) =
        [[(PhClass.vowel, true)],
         [(PhClass.consonant, true), (PhClass.vowel, true)]] := by
  intro seed
  exact ⟨rfl, by decide, by decide, by decide, by decide, by decide⟩
